import Mathlib

/-!
Verification of the dual-backend persistence layer of `src/src/db.ts`
(the note repository built over localStorage — the Fast backend — and
IndexedDB — the Durable backend).

The TypeScript functions `getNote` and `saveNote` are embedded shallowly:

* `Stores` is the mutable storage state visible to the code: the two
  localStorage keys `noteApp_backup` and `noteApp_backup_time`, and the
  single IndexedDB record under key 1.
* `Env` packages the behaviour injected by the host environment during one
  call: the availability probes, which localStorage operations throw, and
  how the asynchronous IndexedDB open / get-request / put-transaction
  settle (success, error, abort, or never, each with the time at which the
  event fires, in milliseconds).
* `Outcome α` is the result of awaiting a promise chain: either it
  resolves with a value and an elapsed time, or it hangs (its promise
  never settles).
* JavaScript numbers appearing as `updatedAt` are modelled as
  `Option Int`, with `none` standing for NaN (the only non-finite value
  this code can produce, via `parseInt`).

Each half of the two public functions is a separate definition with the
source lines it embeds noted in its doc comment, and `getNote`/`saveNote`
compose them exactly as the source does.
-/

/-- The persisted record (`interface Note`, src/src/db.ts lines 3-7).
JavaScript numbers are modelled as `Option Int`; `none` stands for NaN. -/
structure Note where
  id : Nat
  content : String
  updatedAt : Option Int
deriving Repr, DecidableEq

/-- Storage state the code reads and writes: the localStorage keys
`noteApp_backup` and `noteApp_backup_time` (absent key = `none`) and the
IndexedDB object store `notes` record under key 1. -/
structure Stores where
  lsBackup : Option String
  lsBackupTime : Option String
  idbNote : Option Note
deriving Repr, DecidableEq

/-- How the `indexedDB.open` request of `openDB` (lines 30-65) settles.
`success t` / `failure t`: `onsuccess` / `onerror` fires after `t` ms.
`blocked`: only `onblocked` fires (a schema upgrade is pending in another
consumer); the handler merely logs, so the promise of `openDB` never
settles. -/
inductive OpenOutcome where
  | success (t : Nat)
  | failure (t : Nat)
  | blocked
deriving Repr, DecidableEq

/-- How the read request `store.get(1)` inside `getNote` (lines 105-130)
settles: its `onsuccess`/`onerror` handler fires after `t` ms
(`fires true t` / `fires false t`), or no handler ever fires (`never`).
A synchronous exception from `db.transaction`/`store.get`, caught at line
133, is observationally `fires false 0`. -/
inductive ReqOutcome where
  | fires (ok : Bool) (t : Nat)
  | never
deriving Repr, DecidableEq

/-- How the readwrite transaction of `saveNote` (lines 188-243) settles:
`complete t` — `oncomplete` fires after `t` ms and the put is durably
applied; `error t` / `abort t` / `putError t` — the corresponding error
handler fires after `t` ms and the transaction is rolled back; `never` —
no handler ever fires and nothing is written. -/
inductive TxOutcome where
  | complete (t : Nat)
  | error (t : Nat)
  | abort (t : Nat)
  | putError (t : Nat)
  | never
deriving Repr, DecidableEq

/-- Behaviour injected by the host environment during one call into the
persistence layer. `lsAvailable` is the result of the
`isLocalStorageAvailable` probe (lines 19-28); `lsGetThrows` makes
`localStorage.getItem` throw; `lsSetContentThrows` / `lsSetTimeThrows`
make the two `localStorage.setItem` calls of `saveNote` throw;
`idbAvailable` is `isIndexedDBAvailable` (lines 10-16); the remaining
fields drive the asynchronous IndexedDB operations. -/
structure Env where
  lsAvailable : Bool
  lsGetThrows : Bool
  lsSetContentThrows : Bool
  lsSetTimeThrows : Bool
  idbAvailable : Bool
  openOutcome : OpenOutcome
  getReq : ReqOutcome
  putTx : TxOutcome
deriving Repr, DecidableEq

/-- The 5000 ms guard both inner waits use (lines 111 and 201); the spec
counts it as 5 time units of 1000 ms. -/
def IDB_TIMEOUT : Nat := 5000

/-- Result of awaiting a promise chain: resolution with a value and the
elapsed time in ms, or a hang (the promise never settles). The code never
rejects from `getNote`/`saveNote`: every executor only resolves and every
`await openDB()` sits in a try/catch, so rejection needs no constructor. -/
inductive Outcome (α : Type) where
  | resolves (val : α) (elapsed : Nat)
  | hangs
deriving Repr, DecidableEq

/-- Events issued by `saveNote`, in issue order: the two
`localStorage.setItem` calls (lines 163-164), the `openDB()` call
(line 187) and the `store.put(note)` call (line 191). An event records
that the operation was issued, whether or not it later succeeded. -/
inductive Ev where
  | fastWriteContent (s : String)
  | fastWriteTime (s : String)
  | durOpen
  | durPut (n : Note)
deriving Repr, DecidableEq

/-- `parseInt(s, 10)`: skip leading whitespace, an optional sign, then
read the longest run of leading decimal digits; when there is none the
result is NaN (`none`). -/
def parseIntBase10 (s : String) : Option Int :=
  let cs := s.toList.dropWhile (fun c => c = ' ' || c = '\t' || c = '\n' || c = '\r')
  let signed : Int × List Char :=
    match cs with
    | '-' :: rest => (-1, rest)
    | '+' :: rest => (1, rest)
    | _ => (1, cs)
  let digits := signed.2.takeWhile Char.isDigit
  if digits.isEmpty then none
  else some (signed.1 * (digits.foldl (fun acc c => acc * 10 + (c.toNat - '0'.toNat)) 0 : Nat))

/-- The Fast half of `getNote` (lines 72-97): probe localStorage, read the
two keys inside try/catch, and build `localStorageNote`. The guard
`if (backup)` treats the empty string as falsy, and
`parseInt(backupTime || '0', 10)` substitutes `'0'` only when the
timestamp key is absent or holds the empty string. -/
def fastReadNote (env : Env) (st : Stores) : Option Note :=
  if env.lsAvailable then
    if env.lsGetThrows then none
    else
      match st.lsBackup with
      | some backup =>
          if backup ≠ "" then
            let tStr :=
              match st.lsBackupTime with
              | some s => if s = "" then "0" else s
              | none => "0"
            some { id := 1, content := backup, updatedAt := parseIntBase10 tStr }
          else none
      | none => none
  else none

/-- The Durable half of `getNote` (lines 100-138): if IndexedDB probes
available, await `openDB()` (a rejection is caught at line 133, a blocked
open hangs), then race the get request against the 5000 ms timer; an
error or a timeout yields `null`. Elapsed time is the open time plus the
inner wait. -/
def idbReadNote (env : Env) (st : Stores) : Outcome (Option Note) :=
  if env.idbAvailable then
    match env.openOutcome with
    | .failure t => .resolves none t
    | .blocked => .hangs
    | .success tOpen =>
        match env.getReq with
        | .fires ok t =>
            if t < IDB_TIMEOUT then .resolves (if ok then st.idbNote else none) (tOpen + t)
            else .resolves none (tOpen + IDB_TIMEOUT)
        | .never => .resolves none (tOpen + IDB_TIMEOUT)
  else .resolves none 0

/-- `getNote` (lines 67-153): read the Fast backend, then the Durable
backend, and return `localStorageNote` when it is non-null, otherwise
`indexedDBNote`, otherwise `null`. -/
def getNote (env : Env) (st : Stores) : Outcome (Option Note) :=
  let localStorageNote := fastReadNote env st
  match idbReadNote env st with
  | .hangs => .hangs
  | .resolves indexedDBNote tIdb =>
      match localStorageNote with
      | some n => .resolves (some n) tIdb
      | none => .resolves indexedDBNote tIdb

/-- The Fast half of `saveNote` (lines 160-182): when localStorage probes
available, `setItem('noteApp_backup', content)` then
`setItem('noteApp_backup_time', now.toString())`, inside one try/catch —
if the first call throws the second is never issued; if the second throws
the content key has already been replaced. Returns the updated stores and
the trace of issued writes. -/
def fastWriteNote (env : Env) (st : Stores) (content : String) (now : Nat) :
    Stores × List Ev :=
  if env.lsAvailable then
    if env.lsSetContentThrows then (st, [Ev.fastWriteContent content])
    else
      let st1 : Stores := { st with lsBackup := some content }
      if env.lsSetTimeThrows then (st1, [Ev.fastWriteContent content])
      else ({ st1 with lsBackupTime := some (toString now) },
            [Ev.fastWriteContent content, Ev.fastWriteTime (toString now)])
  else (st, [])

/-- The Durable half of `saveNote` (lines 185-250): when IndexedDB probes
available, await `openDB()` (rejection caught at line 246, blocked open
hangs), issue `store.put(note)` and wait for the first of `oncomplete`,
`onerror`, `onabort`, `putRequest.onerror` or the 5000 ms timer; every
one of them resolves. The record is replaced exactly when the transaction
completes — even when `oncomplete` fires after the timer already resolved
the promise. -/
def idbWriteNote (env : Env) (st : Stores) (note : Note) :
    Outcome Stores × List Ev :=
  if env.idbAvailable then
    match env.openOutcome with
    | .failure t => (.resolves st t, [Ev.durOpen])
    | .blocked => (.hangs, [Ev.durOpen])
    | .success tOpen =>
        match env.putTx with
        | .complete t =>
            (.resolves { st with idbNote := some note } (tOpen + min t IDB_TIMEOUT),
             [Ev.durOpen, Ev.durPut note])
        | .error t => (.resolves st (tOpen + min t IDB_TIMEOUT), [Ev.durOpen, Ev.durPut note])
        | .abort t => (.resolves st (tOpen + min t IDB_TIMEOUT), [Ev.durOpen, Ev.durPut note])
        | .putError t => (.resolves st (tOpen + min t IDB_TIMEOUT), [Ev.durOpen, Ev.durPut note])
        | .never => (.resolves st (tOpen + IDB_TIMEOUT), [Ev.durOpen, Ev.durPut note])
  else (.resolves st 0, [])

/-- `saveNote` (lines 156-253): stamp `now` once into the note, write the
Fast backend synchronously, then the Durable backend, and return the
stamped note itself (not a re-read). The second component is the trace of
issued writes, Fast events before Durable events exactly as in the
source. -/
def saveNote (env : Env) (st : Stores) (content : String) (now : Nat) :
    Outcome (Note × Stores) × List Ev :=
  let note : Note := { id := 1, content := content, updatedAt := some now }
  let fastRes := fastWriteNote env st content now
  let durRes := idbWriteNote env fastRes.1 note
  match durRes.1 with
  | .hangs => (.hangs, fastRes.2 ++ durRes.2)
  | .resolves st2 t => (.resolves (note, st2) t, fastRes.2 ++ durRes.2)

/-- The localStorage side behaves normally: the probe succeeds and none of
its operations throw. -/
def fastHealthy (e : Env) : Prop :=
  e.lsAvailable = true ∧ e.lsGetThrows = false ∧
  e.lsSetContentThrows = false ∧ e.lsSetTimeThrows = false

/-- The IndexedDB side behaves normally: available, the open request
succeeds, the read request fires `onsuccess` before the 5000 ms timer and
the write transaction completes. -/
def durHealthy (e : Env) : Prop :=
  e.idbAvailable = true ∧
  (∃ t, e.openOutcome = OpenOutcome.success t) ∧
  (∃ t, t < IDB_TIMEOUT ∧ e.getReq = ReqOutcome.fires true t) ∧
  (∃ t, e.putTx = TxOutcome.complete t)

/-- The open request settles whenever it is attempted (the one behaviour
that can make the promises of `getNote`/`saveNote` hang is excluded). -/
def idbSettles (e : Env) : Prop :=
  e.idbAvailable = false ∨ e.openOutcome ≠ OpenOutcome.blocked

/-- The read request does not deliver a value. -/
def getReqFails : ReqOutcome → Prop
  | .fires ok _ => ok = false
  | .never => True

/-- The write transaction does not complete. -/
def putTxNotComplete : TxOutcome → Prop
  | .complete _ => False
  | _ => True

/-- Every Durable operation fails: the backend is unavailable, or its open
rejects, or the open succeeds but the read request errors or times out and
the write transaction never completes. -/
def durAllOpsFail (e : Env) : Prop :=
  e.idbAvailable = false ∨
  (∃ t, e.openOutcome = OpenOutcome.failure t) ∨
  ((∃ t, e.openOutcome = OpenOutcome.success t) ∧
    getReqFails e.getReq ∧ putTxNotComplete e.putTx)

/-- Marks the two localStorage write events. -/
def isFastWrite : Ev → Bool
  | .fastWriteContent _ => true
  | .fastWriteTime _ => true
  | _ => false

/-- Marks the IndexedDB put event. -/
def isDurPut : Ev → Bool
  | .durPut _ => true
  | _ => false

/-- A fully healthy environment used as a concrete test fixture. -/
def envHealthy : Env where
  lsAvailable := true
  lsGetThrows := false
  lsSetContentThrows := false
  lsSetTimeThrows := false
  idbAvailable := true
  openOutcome := .success 1
  getReq := .fires true 1
  putTx := .complete 1

/-- Empty storage: no prior saves in either backend. -/
def emptyStores : Stores where
  lsBackup := none
  lsBackupTime := none
  idbNote := none

theorem fastWriteNote_healthy (env : Env) (st : Stores) (c : String) (now : Nat)
    (h : fastHealthy env) :
    fastWriteNote env st c now =
      ({ st with lsBackup := some c, lsBackupTime := some (toString now) },
       [Ev.fastWriteContent c, Ev.fastWriteTime (toString now)]) := by
  obtain ⟨h1, _, h3, h4⟩ := h
  simp [fastWriteNote, h1, h3, h4]

theorem idbWriteNote_healthy (env : Env) (st : Stores) (n : Note)
    (h : durHealthy env) :
    ∃ t, idbWriteNote env st n =
      (Outcome.resolves { st with idbNote := some n } t, [Ev.durOpen, Ev.durPut n]) := by
  obtain ⟨h1, ⟨to', ho⟩, _, ⟨tp, hp⟩⟩ := h
  refine ⟨to' + min tp IDB_TIMEOUT, ?_⟩
  simp [idbWriteNote, h1, ho, hp]

theorem fastReadNote_some (env : Env) (st : Stores) (b : String)
    (h1 : env.lsAvailable = true) (h2 : env.lsGetThrows = false)
    (hb : st.lsBackup = some b) (hbne : b ≠ "") :
    ∃ u, fastReadNote env st = some { id := 1, content := b, updatedAt := u } := by
  refine ⟨parseIntBase10 (match st.lsBackupTime with
    | some s => if s = "" then "0" else s
    | none => "0"), ?_⟩
  simp [fastReadNote, h1, h2, hb, hbne]

theorem idbReadNote_healthy (env : Env) (st : Stores) (h : durHealthy env) :
    ∃ t, idbReadNote env st = Outcome.resolves st.idbNote t := by
  obtain ⟨h1, ⟨to', ho⟩, ⟨tg, htg, hg⟩, _⟩ := h
  refine ⟨to' + tg, ?_⟩
  simp [idbReadNote, h1, ho, hg, htg]

theorem idbReadNote_settles (env : Env) (st : Stores) (h : idbSettles env) :
    ∃ r t, idbReadNote env st = Outcome.resolves r t := by
  unfold idbReadNote
  rcases h with h | h
  · simp [h]
  · cases ha : env.idbAvailable
    · simp
    · cases ho : env.openOutcome with
      | success tOpen =>
          cases hg : env.getReq with
          | fires ok t =>
              by_cases hto : t < IDB_TIMEOUT <;> simp [hto]
          | never => simp
      | failure t => simp
      | blocked => exact absurd ho h

theorem idbWriteNote_settles (env : Env) (st : Stores) (n : Note) (h : idbSettles env) :
    ∃ st2 t, (idbWriteNote env st n).1 = Outcome.resolves st2 t := by
  unfold idbWriteNote
  rcases h with h | h
  · simp [h]
  · cases ha : env.idbAvailable
    · simp
    · cases ho : env.openOutcome with
      | success tOpen => cases hp : env.putTx <;> simp
      | failure t => simp
      | blocked => exact absurd ho h

theorem saveNote_resolves_inv (env : Env) (st : Stores) (c : String) (now : Nat)
    (n : Note) (st2 : Stores) (t : Nat)
    (h : (saveNote env st c now).1 = Outcome.resolves (n, st2) t) :
    n = { id := 1, content := c, updatedAt := some now } ∧
    (idbWriteNote env (fastWriteNote env st c now).1
      { id := 1, content := c, updatedAt := some now }).1 = Outcome.resolves st2 t := by
  cases hw : (idbWriteNote env (fastWriteNote env st c now).1
      { id := 1, content := c, updatedAt := some now }).1 with
  | hangs => simp [saveNote, hw] at h
  | resolves st' t' =>
      simp only [saveNote, hw] at h
      simp only [Outcome.resolves.injEq, Prod.mk.injEq] at h
      obtain ⟨⟨hn, hst⟩, ht⟩ := h
      subst hn hst ht
      exact ⟨rfl, rfl⟩

theorem saveNote_settles (env : Env) (st : Stores) (c : String) (now : Nat)
    (h : idbSettles env) :
    ∃ st2 t, (saveNote env st c now).1 =
      Outcome.resolves ({ id := 1, content := c, updatedAt := some now }, st2) t := by
  obtain ⟨st2, t, hw⟩ := idbWriteNote_settles env (fastWriteNote env st c now).1
    { id := 1, content := c, updatedAt := some now } h
  exact ⟨st2, t, by simp [saveNote, hw]⟩

theorem fastWriteNote_state (env : Env) (st : Stores) (c : String) (now : Nat) :
    (fastWriteNote env st c now).1 = st ∨
    (fastWriteNote env st c now).1 = { st with lsBackup := some c } ∨
    (fastWriteNote env st c now).1 =
      { st with lsBackup := some c, lsBackupTime := some (toString now) } := by
  unfold fastWriteNote
  split
  · split
    · exact Or.inl rfl
    · split
      · exact Or.inr (Or.inl rfl)
      · exact Or.inr (Or.inr rfl)
  · exact Or.inl rfl

theorem fastWriteNote_keeps_or_stamps (env : Env) (st : Stores) (c : String) (now : Nat) :
    (fastWriteNote env st c now).1.lsBackupTime = st.lsBackupTime ∨
    (fastWriteNote env st c now).1.lsBackupTime = some (toString now) := by
  rcases fastWriteNote_state env st c now with h | h | h <;> rw [h]
  · exact Or.inl rfl
  · exact Or.inl rfl
  · exact Or.inr rfl

theorem idbWriteNote_state (env : Env) (st : Stores) (n : Note) (st2 : Stores) (t : Nat)
    (h : (idbWriteNote env st n).1 = Outcome.resolves st2 t) :
    st2 = st ∨ st2 = { st with idbNote := some n } := by
  unfold idbWriteNote at h
  split at h <;> (try split at h) <;> (try split at h) <;> simp_all

theorem idbWriteNote_keeps_ls (env : Env) (st : Stores) (n : Note) (st2 : Stores) (t : Nat)
    (h : (idbWriteNote env st n).1 = Outcome.resolves st2 t) :
    st2.lsBackup = st.lsBackup ∧ st2.lsBackupTime = st.lsBackupTime := by
  rcases idbWriteNote_state env st n st2 t h with h2 | h2 <;> rw [h2] <;> exact ⟨rfl, rfl⟩

theorem fastWriteNote_trace (env : Env) (st : Stores) (c : String) (now : Nat) :
    ∀ e ∈ (fastWriteNote env st c now).2, isDurPut e = false := by
  intro e he
  unfold fastWriteNote at he
  split at he <;> (try split at he) <;> (try split at he) <;>
    simp_all [isDurPut] <;> rcases he with he | he <;> simp_all [isDurPut]

theorem idbWriteNote_trace (env : Env) (st : Stores) (n : Note) :
    ∀ e ∈ (idbWriteNote env st n).2, isFastWrite e = false := by
  intro e he
  unfold idbWriteNote at he
  split at he <;> (try split at he) <;> (try split at he) <;>
    simp_all [isFastWrite] <;> rcases he with he | he <;> simp_all [isFastWrite]

theorem saveNote_trace (env : Env) (st : Stores) (c : String) (now : Nat) :
    (saveNote env st c now).2 =
      (fastWriteNote env st c now).2 ++
      (idbWriteNote env (fastWriteNote env st c now).1
        { id := 1, content := c, updatedAt := some now }).2 := by
  cases hw : (idbWriteNote env (fastWriteNote env st c now).1
      { id := 1, content := c, updatedAt := some now }).1 <;> simp [saveNote, hw]

theorem fast_index_lt_durPut_index (l1 l2 : List Ev) (i j : Nat)
    (h1 : ∀ e ∈ l1, isDurPut e = false)
    (h2 : ∀ e ∈ l2, isFastWrite e = false)
    (hi : ((l1 ++ l2)[i]?).any isFastWrite = true)
    (hj : ((l1 ++ l2)[j]?).any isDurPut = true) : i < j := by
  have hiL : i < l1.length := by
    by_contra hge
    push_neg at hge
    rw [List.getElem?_append_right hge] at hi
    cases hm : l2[i - l1.length]? with
    | none => rw [hm] at hi; simp [Option.any] at hi
    | some e =>
        rw [hm] at hi
        obtain ⟨hlt, he⟩ := List.getElem?_eq_some.mp hm
        have hfe := h2 _ (he ▸ List.getElem_mem hlt)
        simp [Option.any, hfe] at hi
  have hjR : l1.length ≤ j := by
    by_contra hltj
    push_neg at hltj
    rw [List.getElem?_append_left hltj] at hj
    cases hm : l1[j]? with
    | none => rw [hm] at hj; simp [Option.any] at hj
    | some e =>
        rw [hm] at hj
        obtain ⟨hlt2, he⟩ := List.getElem?_eq_some.mp hm
        have hde := h1 _ (he ▸ List.getElem_mem hlt2)
        simp [Option.any, hde] at hj
  exact lt_of_lt_of_le hiL hjR

/-- Environment in which every Durable operation fails: the open request
rejects, so neither the read nor the write path can reach the store. -/
def envDurFail : Env := { envHealthy with openOutcome := OpenOutcome.failure 1 }

/-- Environment in which the IndexedDB open request stays blocked: only
`onblocked` ever fires. -/
def envBlocked : Env := { envHealthy with openOutcome := OpenOutcome.blocked }

/-- Environment in which the timestamp `setItem` of `saveNote` throws
(e.g. quota exhausted between the two writes). -/
def envTimeThrows : Env := { envHealthy with lsSetTimeThrows := true }

/-- Divergent stored state: the Fast backend holds the empty string, the
Durable backend holds `"x"`. -/
def divergedStores : Stores where
  lsBackup := some ""
  lsBackupTime := some "0"
  idbNote := some { id := 1, content := "x", updatedAt := some 0 }

/-- Fast backend holding content `"hello"` with an unparseable timestamp. -/
def nanStores : Stores where
  lsBackup := some "hello"
  lsBackupTime := some "x"
  idbNote := none

/-- Fast backend holding a previous note `"old"` stamped `"111"`. -/
def oldStores : Stores where
  lsBackup := some "old"
  lsBackupTime := some "111"
  idbNote := none

/-- Divergent stored state with non-empty Fast content: Fast holds `"A"`,
Durable holds `"B"`. -/
def abStores : Stores where
  lsBackup := some "A"
  lsBackupTime := some "1"
  idbNote := some { id := 1, content := "B", updatedAt := some 0 }

theorem fastReadNote_empty (env : Env) (st : Stores) (h : st.lsBackup = some "") :
    fastReadNote env st = none := by
  unfold fastReadNote
  rw [h]
  simp

theorem idbWriteNote_fail_state (env : Env) (st : Stores) (n : Note)
    (hd : durAllOpsFail env) :
    ∃ t, (idbWriteNote env st n).1 = Outcome.resolves st t := by
  rcases hd with h | ⟨t, h⟩ | ⟨⟨t, h⟩, hg, hp⟩
  · exact ⟨0, by simp [idbWriteNote, h]⟩
  · cases ha : env.idbAvailable
    · exact ⟨0, by simp [idbWriteNote, ha]⟩
    · exact ⟨t, by simp [idbWriteNote, ha, h]⟩
  · cases ha : env.idbAvailable
    · exact ⟨0, by simp [idbWriteNote, ha]⟩
    · cases hpt : env.putTx with
      | complete t2 => rw [hpt] at hp; simp [putTxNotComplete] at hp
      | error t2 => exact ⟨t + min t2 IDB_TIMEOUT, by simp [idbWriteNote, ha, h, hpt]⟩
      | abort t2 => exact ⟨t + min t2 IDB_TIMEOUT, by simp [idbWriteNote, ha, h, hpt]⟩
      | putError t2 => exact ⟨t + min t2 IDB_TIMEOUT, by simp [idbWriteNote, ha, h, hpt]⟩
      | never => exact ⟨t + IDB_TIMEOUT, by simp [idbWriteNote, ha, h, hpt]⟩

theorem idbReadNote_fail (env : Env) (st : Stores) (hd : durAllOpsFail env) :
    ∃ t, idbReadNote env st = Outcome.resolves none t := by
  rcases hd with h | ⟨t, h⟩ | ⟨⟨t, h⟩, hg, hp⟩
  · exact ⟨0, by simp [idbReadNote, h]⟩
  · cases ha : env.idbAvailable
    · exact ⟨0, by simp [idbReadNote, ha]⟩
    · exact ⟨t, by simp [idbReadNote, ha, h]⟩
  · cases ha : env.idbAvailable
    · exact ⟨0, by simp [idbReadNote, ha]⟩
    · cases hgr : env.getReq with
      | fires ok t2 =>
          rw [hgr] at hg
          by_cases hto : t2 < IDB_TIMEOUT
          · exact ⟨t + t2, by simp [idbReadNote, ha, h, hgr, hto, show ok = false from hg]⟩
          · exact ⟨t + IDB_TIMEOUT, by simp [idbReadNote, ha, h, hgr, hto]⟩
      | never => exact ⟨t + IDB_TIMEOUT, by simp [idbReadNote, ha, h, hgr]⟩

/-- Claim C1 (confirmed): round trip — with both backends healthy during
both calls, `saveNote c` resolves, and a subsequent `getNote` on the
stores it left behind (unmodified in between) yields an Entry whose
content equals `c`. -/
theorem round_trip_healthy (envS envG : Env) (st : Stores) (c : String) (now : Nat)
    (hSf : fastHealthy envS) (hSd : durHealthy envS)
    (hGf : fastHealthy envG) (hGd : durHealthy envG) :
    ∃ n st2 t, (saveNote envS st c now).1 = Outcome.resolves (n, st2) t ∧
      ∃ m t2, getNote envG st2 = Outcome.resolves (some m) t2 ∧ m.content = c := by
  obtain ⟨tS, hiw⟩ := idbWriteNote_healthy envS
      { lsBackup := some c, lsBackupTime := some (toString now), idbNote := st.idbNote }
      { id := 1, content := c, updatedAt := some now } hSd
  have hfw1 : (fastWriteNote envS st c now).1 =
      { lsBackup := some c, lsBackupTime := some (toString now), idbNote := st.idbNote } := by
    rw [fastWriteNote_healthy envS st c now hSf]
  have hiw1 : (idbWriteNote envS (fastWriteNote envS st c now).1
      { id := 1, content := c, updatedAt := some now }).1 =
      Outcome.resolves
        ({ lsBackup := some c, lsBackupTime := some (toString now),
           idbNote := some { id := 1, content := c, updatedAt := some now } } : Stores) tS := by
    rw [hfw1, hiw]
  refine ⟨{ id := 1, content := c, updatedAt := some now },
    { lsBackup := some c, lsBackupTime := some (toString now),
      idbNote := some { id := 1, content := c, updatedAt := some now } },
    tS, by simp [saveNote, hiw1], ?_⟩
  obtain ⟨tg, hir⟩ := idbReadNote_healthy envG
      { lsBackup := some c, lsBackupTime := some (toString now),
        idbNote := some { id := 1, content := c, updatedAt := some now } } hGd
  by_cases hc : c = ""
  · subst hc
    have hfr := fastReadNote_empty envG
      { lsBackup := some "", lsBackupTime := some (toString now),
        idbNote := some { id := 1, content := "", updatedAt := some now } } rfl
    exact ⟨{ id := 1, content := "", updatedAt := some now }, tg,
      by simp [getNote, hfr, hir], rfl⟩
  · obtain ⟨u, hfr⟩ := fastReadNote_some envG
      { lsBackup := some c, lsBackupTime := some (toString now),
        idbNote := some { id := 1, content := c, updatedAt := some now } } c
      hGf.1 hGf.2.1 rfl hc
    exact ⟨{ id := 1, content := c, updatedAt := u }, tg,
      by simp [getNote, hfr, hir], rfl⟩

/-- Witness for C1 at a concrete healthy environment and input. -/
theorem round_trip_healthy_witness :
    fastHealthy envHealthy ∧ durHealthy envHealthy ∧
    (∃ n st2 t, (saveNote envHealthy emptyStores "hello" 42).1 = Outcome.resolves (n, st2) t ∧
      ∃ m t2, getNote envHealthy st2 = Outcome.resolves (some m) t2 ∧ m.content = "hello") :=
  ⟨⟨rfl, rfl, rfl, rfl⟩, ⟨rfl, ⟨1, rfl⟩, ⟨1, by decide, rfl⟩, ⟨1, rfl⟩⟩,
    round_trip_healthy envHealthy envHealthy emptyStores "hello" 42
      ⟨rfl, rfl, rfl, rfl⟩ ⟨rfl, ⟨1, rfl⟩, ⟨1, by decide, rfl⟩, ⟨1, rfl⟩⟩
      ⟨rfl, rfl, rfl, rfl⟩ ⟨rfl, ⟨1, rfl⟩, ⟨1, by decide, rfl⟩, ⟨1, rfl⟩⟩⟩

/-- Counterexample to C2 as stated: the Fast backend holds content `""`,
the Durable backend holds `"x" ≠ ""`, yet `getNote` returns the Durable
value `"x"`, not the Fast backend's value. -/
theorem fast_precedence_cex :
    divergedStores.lsBackup = some "" ∧
    divergedStores.idbNote = some { id := 1, content := "x", updatedAt := some 0 } ∧
    getNote envHealthy divergedStores =
      Outcome.resolves (some { id := 1, content := "x", updatedAt := some 0 }) 2 ∧
    ("x" : String) ≠ "" := by decide

/-- Claim C2 (amended): when the Fast backend holds a NON-EMPTY content
`A`, the Durable backend holds a divergent content `B ≠ A`, localStorage
reads normally and the Durable open settles, `getNote` returns an Entry
whose content is `A` — the fixed Fast-first precedence. -/
theorem fast_precedence_nonempty (env : Env) (st : Stores) (A B : String) (nb : Note)
    (hA : st.lsBackup = some A) (hAne : A ≠ "")
    (_hB : st.idbNote = some nb) (_hBc : nb.content = B) (_hBA : B ≠ A)
    (hls : env.lsAvailable = true) (hlg : env.lsGetThrows = false)
    (hset : idbSettles env) :
    ∃ m t, getNote env st = Outcome.resolves (some m) t ∧ m.content = A := by
  obtain ⟨u, hfr⟩ := fastReadNote_some env st A hls hlg hA hAne
  obtain ⟨r, t, hir⟩ := idbReadNote_settles env st hset
  exact ⟨{ id := 1, content := A, updatedAt := u }, t, by simp [getNote, hfr, hir], rfl⟩

/-- Witness for C2 (amended) at a concrete divergent state. -/
theorem fast_precedence_nonempty_witness :
    ("A" : String) ≠ "" ∧ ("B" : String) ≠ "A" ∧ idbSettles envHealthy ∧
    (∃ m t, getNote envHealthy abStores = Outcome.resolves (some m) t ∧ m.content = "A") :=
  ⟨by decide, by decide, Or.inr (by decide),
    fast_precedence_nonempty envHealthy abStores "A" "B"
      { id := 1, content := "B", updatedAt := some 0 }
      rfl (by decide) rfl rfl (by decide) rfl rfl (Or.inr (by decide))⟩

/-- Counterexample to C3 as stated: all Durable operations fail (open
rejects) and the Fast backend is healthy, yet for content `""` the
subsequent `getNote` returns null — not an Entry with content `""`. -/
theorem durable_failure_empty_cex :
    durAllOpsFail envDurFail ∧
    (saveNote envDurFail emptyStores "" 7).1 =
      Outcome.resolves ({ id := 1, content := "", updatedAt := some 7 },
        { lsBackup := some "", lsBackupTime := some "7", idbNote := none }) 1 ∧
    getNote envDurFail
        { lsBackup := some "", lsBackupTime := some "7", idbNote := none } =
      Outcome.resolves none 1 :=
  ⟨Or.inr (Or.inl ⟨1, rfl⟩), by decide, by decide⟩

/-- Claim C3 (amended): for every NON-EMPTY content `c`, when every
Durable operation fails but the Fast backend is healthy, `saveNote c`
still resolves, and a subsequent `getNote` still returns an Entry with
content `c`, equal to the Fast backend's read. -/
theorem durable_failure_tolerance_nonempty (env : Env) (st : Stores) (c : String)
    (now : Nat) (hc : c ≠ "") (hf : fastHealthy env) (hd : durAllOpsFail env) :
    ∃ n st2 t, (saveNote env st c now).1 = Outcome.resolves (n, st2) t ∧
      ∃ m t2, getNote env st2 = Outcome.resolves (some m) t2 ∧
        m.content = c ∧ fastReadNote env st2 = some m := by
  have hfw1 : (fastWriteNote env st c now).1 =
      { lsBackup := some c, lsBackupTime := some (toString now), idbNote := st.idbNote } := by
    rw [fastWriteNote_healthy env st c now hf]
  obtain ⟨t, hiw⟩ := idbWriteNote_fail_state env (fastWriteNote env st c now).1
      { id := 1, content := c, updatedAt := some now } hd
  refine ⟨{ id := 1, content := c, updatedAt := some now }, (fastWriteNote env st c now).1, t,
    by simp [saveNote, hiw], ?_⟩
  obtain ⟨u, hfr⟩ := fastReadNote_some env (fastWriteNote env st c now).1 c hf.1 hf.2.1
      (by rw [hfw1]) hc
  obtain ⟨tg, hir⟩ := idbReadNote_fail env (fastWriteNote env st c now).1 hd
  exact ⟨{ id := 1, content := c, updatedAt := u }, tg, by simp [getNote, hfr, hir], rfl, hfr⟩

/-- Witness for C3 (amended) at a concrete failing-Durable environment. -/
theorem durable_failure_tolerance_nonempty_witness :
    ("hi" : String) ≠ "" ∧ fastHealthy envDurFail ∧ durAllOpsFail envDurFail ∧
    (∃ n st2 t, (saveNote envDurFail emptyStores "hi" 7).1 = Outcome.resolves (n, st2) t ∧
      ∃ m t2, getNote envDurFail st2 = Outcome.resolves (some m) t2 ∧
        m.content = "hi" ∧ fastReadNote envDurFail st2 = some m) :=
  ⟨by decide, ⟨rfl, rfl, rfl, rfl⟩, Or.inr (Or.inl ⟨1, rfl⟩),
    durable_failure_tolerance_nonempty envDurFail emptyStores "hi" 7 (by decide)
      ⟨rfl, rfl, rfl, rfl⟩ (Or.inr (Or.inl ⟨1, rfl⟩))⟩

/-- Claim C4 (confirmed): for every input, every stored state and every
combination of availability flags and backend errors in which the Durable
open settles when attempted, `getNote` resolves (to an Entry or null) and
`saveNote c` resolves to exactly the stamped Entry
`{id := 1, content := c, updatedAt := now}` built from the caller's
content — so Durable-path failures never change `saveNote`'s return
value, and neither function rejects (the embedding has no rejection
outcome because every handler in the source resolves). -/
theorem public_api_total (env : Env) (st : Stores) (c : String) (now : Nat)
    (h : idbSettles env) :
    (∃ st2 t, (saveNote env st c now).1 =
      Outcome.resolves ({ id := 1, content := c, updatedAt := some now }, st2) t) ∧
    (∃ r t, getNote env st = Outcome.resolves r t) := by
  refine ⟨saveNote_settles env st c now h, ?_⟩
  obtain ⟨r, t, hir⟩ := idbReadNote_settles env st h
  cases hfr : fastReadNote env st with
  | none => exact ⟨r, t, by simp [getNote, hfr, hir]⟩
  | some m => exact ⟨some m, t, by simp [getNote, hfr, hir]⟩

/-- Witness for C4 at a concrete environment and input. -/
theorem public_api_total_witness :
    idbSettles envHealthy ∧
    ((∃ st2 t, (saveNote envHealthy emptyStores "w" 3).1 =
        Outcome.resolves ({ id := 1, content := "w", updatedAt := some 3 }, st2) t) ∧
     (∃ r t, getNote envHealthy emptyStores = Outcome.resolves r t)) :=
  ⟨Or.inr (by decide), public_api_total envHealthy emptyStores "w" 3 (Or.inr (by decide))⟩

/-- Claim C5 (code bug): with IndexedDB available but its open request
blocked by a pending schema upgrade — only `onblocked` fires, and the
source's handler merely logs a warning — `getNote` and `saveNote` never
resolve: the spec's ≤ 5 time-unit bound is violated because `openDB` has
no timeout, even while the Fast backend already holds the note. -/
theorem blocked_open_hangs :
    getNote envBlocked oldStores = Outcome.hangs ∧
    (saveNote envBlocked oldStores "w" 9).1 = Outcome.hangs := by decide

/-- Claim C6 (confirmed): a resolving `saveNote` stamps `now` exactly
once — the returned Entry carries `updatedAt = now`, and each backend
either keeps its previous field (its write did not land) or stores that
same stamp: the Fast timestamp key then holds `toString now`, and the
Durable record then equals the returned Entry exactly. -/
theorem single_stamp (env : Env) (st : Stores) (c : String) (now : Nat)
    (n : Note) (st2 : Stores) (t : Nat)
    (h : (saveNote env st c now).1 = Outcome.resolves (n, st2) t) :
    n = { id := 1, content := c, updatedAt := some now } ∧
    (st2.lsBackupTime = st.lsBackupTime ∨ st2.lsBackupTime = some (toString now)) ∧
    (st2.idbNote = st.idbNote ∨
      st2.idbNote = some { id := 1, content := c, updatedAt := some now }) := by
  obtain ⟨hn, hw⟩ := saveNote_resolves_inv env st c now n st2 t h
  refine ⟨hn, ?_, ?_⟩
  · rw [(idbWriteNote_keeps_ls env _ _ st2 t hw).2]
    exact fastWriteNote_keeps_or_stamps env st c now
  · rcases idbWriteNote_state env _ _ st2 t hw with h2 | h2
    · rw [h2]
      rcases fastWriteNote_state env st c now with h3 | h3 | h3 <;> rw [h3] <;>
        exact Or.inl rfl
    · rw [h2]
      exact Or.inr rfl

/-- Witness for C6 at a concrete healthy save. -/
theorem single_stamp_witness :
    ({ lsBackup := some "a", lsBackupTime := some "5",
       idbNote := some { id := 1, content := "a", updatedAt := some 5 } } : Stores).lsBackupTime =
        emptyStores.lsBackupTime ∨
    ({ lsBackup := some "a", lsBackupTime := some "5",
       idbNote := some { id := 1, content := "a", updatedAt := some 5 } } : Stores).lsBackupTime =
        some (toString 5) :=
  (single_stamp envHealthy emptyStores "a" 5
    { id := 1, content := "a", updatedAt := some 5 }
    { lsBackup := some "a", lsBackupTime := some "5",
      idbNote := some { id := 1, content := "a", updatedAt := some 5 } } 2 (by decide)).2.1

/-- Counterexample to C7 as stated: with the Fast content key present and
the timestamp key holding the unparseable string `"x"`, the Fast read
yields `updatedAt = NaN` (`none`), not `0`; and with the content key
present but holding `""`, the Fast read yields no result at all. -/
theorem timestamp_default_cex :
    getNote envHealthy nanStores =
      Outcome.resolves (some { id := 1, content := "hello", updatedAt := none }) 2 ∧
    ((none : Option Int) ≠ some 0) ∧
    fastReadNote envHealthy { lsBackup := some "", lsBackupTime := none, idbNote := none } =
      none := by decide

/-- Claim C7 (amended): when the Fast content key is present with
non-empty content, the Fast read never fails — it yields an Entry with
that content whatever the timestamp key holds — and a missing or empty
timestamp key defaults `updatedAt` to `0`. (A non-empty unparseable
timestamp instead yields NaN.) -/
theorem timestamp_default_amended (env : Env) (st : Stores) (b : String)
    (h1 : env.lsAvailable = true) (h2 : env.lsGetThrows = false)
    (hb : st.lsBackup = some b) (hbne : b ≠ "") :
    (∃ u, fastReadNote env st = some { id := 1, content := b, updatedAt := u }) ∧
    ((st.lsBackupTime = none ∨ st.lsBackupTime = some "") →
      fastReadNote env st = some { id := 1, content := b, updatedAt := some 0 }) := by
  refine ⟨fastReadNote_some env st b h1 h2 hb hbne, ?_⟩
  intro ht
  have h0 : parseIntBase10 "0" = some 0 := by decide
  rcases ht with ht | ht <;> simp [fastReadNote, h1, h2, hb, hbne, ht, h0]

/-- Witness for C7 (amended): a present content key with an absent
timestamp key reads back with `updatedAt = 0`. -/
theorem timestamp_default_amended_witness :
    fastReadNote envHealthy { lsBackup := some "v", lsBackupTime := none, idbNote := none } =
      some { id := 1, content := "v", updatedAt := some 0 } :=
  (timestamp_default_amended envHealthy
    { lsBackup := some "v", lsBackupTime := none, idbNote := none } "v"
    rfl rfl rfl (by decide)).2 (Or.inl rfl)

/-- Claim C8 (confirmed): in the trace of operations issued by any single
`saveNote` call, every issued Fast (localStorage) write sits strictly
before every issued Durable (IndexedDB) put — the Durable write is never
attempted first. -/
theorem fast_write_before_durable (env : Env) (st : Stores) (c : String) (now : Nat)
    (i j : Nat)
    (hi : (((saveNote env st c now).2)[i]?).any isFastWrite = true)
    (hj : (((saveNote env st c now).2)[j]?).any isDurPut = true) : i < j := by
  rw [saveNote_trace env st c now] at hi hj
  exact fast_index_lt_durPut_index _ _ i j
    (fastWriteNote_trace env st c now) (idbWriteNote_trace env _ _) hi hj

/-- Witness for C8 on a healthy save whose trace holds both kinds of
events. -/
theorem fast_write_before_durable_witness :
    ((((saveNote envHealthy emptyStores "a" 5).2)[0]?).any isFastWrite = true) ∧
    ((((saveNote envHealthy emptyStores "a" 5).2)[3]?).any isDurPut = true) ∧
    (0 : Nat) < 3 :=
  ⟨by decide, by decide,
    fast_write_before_durable envHealthy emptyStores "a" 5 0 3 (by decide) (by decide)⟩

/-- Counterexample to C9 as stated: when the timestamp `setItem` throws
after the content `setItem` succeeded, `saveNote` leaves the Fast backend
holding the NEW content `"new"` paired with the OLD timestamp `"111"` —
neither its complete previous state nor its complete new pair. -/
theorem fast_torn_write_cex :
    (saveNote envTimeThrows oldStores "new" 222).1 =
      Outcome.resolves ({ id := 1, content := "new", updatedAt := some 222 },
        { lsBackup := some "new", lsBackupTime := some "111",
          idbNote := some { id := 1, content := "new", updatedAt := some 222 } }) 2 ∧
    (some "new" : Option String) ≠ oldStores.lsBackup ∧
    (some "111" : Option String) ≠ some (toString 222) := by decide

/-- Claim C9 (amended): after a resolving `saveNote`, the Durable record
is replaced atomically — it is its previous state or the complete new
Entry. The Fast backend holds its complete previous pair, the complete
new pair, or — only when the timestamp write throws after the content
write landed — the new content with the previous timestamp. -/
theorem write_atomicity_amended (env : Env) (st : Stores) (c : String) (now : Nat)
    (n : Note) (st2 : Stores) (t : Nat)
    (h : (saveNote env st c now).1 = Outcome.resolves (n, st2) t) :
    (st2.idbNote = st.idbNote ∨
      st2.idbNote = some { id := 1, content := c, updatedAt := some now }) ∧
    ((st2.lsBackup = st.lsBackup ∧ st2.lsBackupTime = st.lsBackupTime) ∨
     (st2.lsBackup = some c ∧ st2.lsBackupTime = some (toString now)) ∨
     (st2.lsBackup = some c ∧ st2.lsBackupTime = st.lsBackupTime)) := by
  obtain ⟨hn, hw⟩ := saveNote_resolves_inv env st c now n st2 t h
  constructor
  · rcases idbWriteNote_state env _ _ st2 t hw with h2 | h2
    · rw [h2]
      rcases fastWriteNote_state env st c now with h3 | h3 | h3 <;> rw [h3] <;>
        exact Or.inl rfl
    · rw [h2]
      exact Or.inr rfl
  · obtain ⟨hb, hbt⟩ := idbWriteNote_keeps_ls env _ _ st2 t hw
    rw [hb, hbt]
    rcases fastWriteNote_state env st c now with h3 | h3 | h3 <;> rw [h3]
    · exact Or.inl ⟨rfl, rfl⟩
    · exact Or.inr (Or.inr ⟨rfl, rfl⟩)
    · exact Or.inr (Or.inl ⟨rfl, rfl⟩)

/-- Witness for C9 (amended) at a concrete healthy save. -/
theorem write_atomicity_amended_witness :
    (({ lsBackup := some "b", lsBackupTime := some "3",
        idbNote := some { id := 1, content := "b", updatedAt := some 3 } } : Stores).idbNote =
      emptyStores.idbNote) ∨
    (({ lsBackup := some "b", lsBackupTime := some "3",
        idbNote := some { id := 1, content := "b", updatedAt := some 3 } } : Stores).idbNote =
      some { id := 1, content := "b", updatedAt := some 3 }) :=
  (write_atomicity_amended envHealthy emptyStores "b" 3
    { id := 1, content := "b", updatedAt := some 3 }
    { lsBackup := some "b", lsBackupTime := some "3",
      idbNote := some { id := 1, content := "b", updatedAt := some 3 } } 2 (by decide)).1

/-- Claim C10 (confirmed): when the Fast content key holds the empty
string, `getNote` ignores the Fast backend entirely — its outcome is
exactly the Durable read's outcome (the Durable Entry when one is read,
otherwise null); no Entry sourced from the Fast backend is ever
returned. -/
theorem empty_fast_ignored (env : Env) (st : Stores)
    (h : st.lsBackup = some "") : getNote env st = idbReadNote env st := by
  unfold getNote
  rw [fastReadNote_empty env st h]
  cases idbReadNote env st <;> rfl

/-- Witness for C10 at a concrete divergent state. -/
theorem empty_fast_ignored_witness :
    divergedStores.lsBackup = some "" ∧
    getNote envHealthy divergedStores = idbReadNote envHealthy divergedStores :=
  ⟨rfl, empty_fast_ignored envHealthy divergedStores rfl⟩
